import Mathlib

/-!
Verification of the `EventReconstructionHillas` tool
(`src/ctapipe/tools/hillas_reconstruction.py`).

The development is a shallow embedding of the tool's own logic:

* numbers are rationals (the Python code works with floats; no claim here
  depends on rounding, only on exact comparisons and data flow);
* the Python dictionaries built per event (`image`, `pixel_x`, ...,
  `hillas`, `hillas_nom`, `tel_phi`, `tel_theta`) and the geometry cache
  `self.geoms` are association lists with Python-dict insert semantics
  (replace the value when the key is present, append otherwise);
* out-of-scope collaborators (calibration, `CameraGeometry.guess`,
  coordinate transforms, `tailcuts_clean`, `dilate`, `hillas_parameters`,
  the stereo fitter, the energy estimator, `scipy.random.normal`) are
  fields of an `Externals` record: the pipeline is proved for every
  choice of these functions, and concrete instances are supplied for the
  closed witnesses;
* Python exceptions are `Except String`: a `KeyError` from a missing
  camera-type entry is `.error`, while `HillasParameterizationError` is
  a value of the external moment function that the per-telescope loop
  catches (`try ... except HillasParameterizationError: continue`).
-/

namespace HillasReco

/-- Hillas moments: the fields of the ctapipe Hillas container that the
tool reads (`size`, `cen_x`, `cen_y`, `width`; `length` is carried along
as a representative of the remaining shape descriptors). -/
structure HillasMoments where
  size : ℚ
  cen_x : ℚ
  cen_y : ℚ
  width : ℚ
  length : ℚ
deriving DecidableEq

/-- Camera geometry as returned by `CameraGeometry.guess`: the fields the
tool reads (`cam_id`, `cam_rotation`, `pix_area`). -/
structure CamGeom where
  cam_id : String
  cam_rotation : ℚ
  pix_area : List ℚ
deriving DecidableEq

/-- Array pointing (`HorizonFrame(alt=..., az=...)`). -/
structure Pointing where
  alt : ℚ
  az : ℚ
deriving DecidableEq

/-- Per-telescope data of one event: calibrated image
(`event.dl1.tel[tel_id].image[0]`), pixel positions and focal length
(`event.inst.pixel_pos[tel_id]`, `event.inst.optical_foclen[tel_id]`)
and the telescope ground position (`event.inst.tel_pos[tel_id]`). -/
structure TelData where
  tel_id : ℕ
  pmt_signal : List ℚ
  pix_x : List ℚ
  pix_y : List ℚ
  foclen : ℚ
  tel_pos : ℚ × ℚ × ℚ
deriving DecidableEq

/-- The parts of the event container the tool reads.
`run_array_direction` is the pair (azimuth, altitude) exactly as in
`event.mcheader.run_array_direction`; `tels` lists
`event.dl0.tels_with_data` together with each telescope's data. -/
structure Event where
  event_id : ℤ
  run_array_direction : ℚ × ℚ
  tels : List TelData
  mc_core_x : ℚ
  mc_core_y : ℚ
  mc_alt : ℚ
  mc_az : ℚ
  mc_energy : ℚ
deriving DecidableEq

/-- Result of the stereo fitter (`fit.predict`): the fields the tool
reads and writes (`alt`, `az`, `core_x`, `core_y`). -/
structure FitResult where
  alt : ℚ
  az : ℚ
  core_x : ℚ
  core_y : ℚ
deriving DecidableEq

/-- One row of the output table
(`EVENT_ID, RECO_ALT, RECO_AZ, RECO_EN, SIM_ALT, SIM_AZ, SIM_EN, NTELS`). -/
structure OutputRow where
  event_id : ℤ
  reco_alt : ℚ
  reco_az : ℚ
  reco_en : ℚ
  sim_alt : ℚ
  sim_az : ℚ
  sim_en : ℚ
  ntels : ℕ
deriving DecidableEq

/-- Python-dict lookup on an association list. -/
def dictLookup {α : Type} : List (ℕ × α) → ℕ → Option α
  | [], _ => none
  | (k, v) :: rest, k' => if k = k' then some v else dictLookup rest k'

/-- Python-dict assignment `d[k] = v`: replace in place when the key is
present, append otherwise. -/
def dictInsert {α : Type} : List (ℕ × α) → ℕ → α → List (ℕ × α)
  | [], k, v => [(k, v)]
  | (k', v') :: rest, k, v =>
      if k' = k then (k, v) :: rest else (k', v') :: dictInsert rest k v

/-- The keys of an association list. -/
def dictKeys {α : Type} (l : List (ℕ × α)) : List ℕ := l.map Prod.fst

/-- `self.amp_cut` from `setup` (a Python dict keyed by camera type;
a missing key raises `KeyError`, modelled by `none`). -/
def amp_cut (cam : String) : Option ℚ :=
  if cam = "LSTCam" then some 100
  else if cam = "NectarCam" then some 100
  else if cam = "FlashCam" then some 100
  else if cam = "GCT" then some 50
  else none

/-- `self.dist_cut` from `setup` (values in degrees). -/
def dist_cut (cam : String) : Option ℚ :=
  if cam = "LSTCam" then some 2
  else if cam = "NectarCam" then some (33 / 10)
  else if cam = "FlashCam" then some 3
  else if cam = "GCT" then some (38 / 10)
  else none

/-- `self.tail_cut` from `setup`: the `(boundary, picture)` threshold
pair per camera type (the code reads index 1 as the picture threshold
and index 0 as the boundary threshold). -/
def tail_cut (cam : String) : Option (ℚ × ℚ) :=
  if cam = "LSTCam" then some (8, 16)
  else if cam = "NectarCam" then some (7, 14)
  else if cam = "FlashCam" then some (7, 14)
  else if cam = "GCT" then some (3, 6)
  else none

/-- The squared centroid distance `cen_x*cen_x + cen_y*cen_y`.  The
source computes `dist = np.sqrt(cen_x*cen_x + cen_y*cen_y)` and then
tests `dist < dist_cut`; since every registered distance cut is
positive, that test is equivalent to `distSq < dist_cut * dist_cut`,
which keeps the embedding decidable.  Theorem `preselect_spec` below
re-expresses the decision through `Real.sqrt`, recovering the source's
formulation exactly. -/
def distSq (h : HillasMoments) : ℚ := h.cen_x * h.cen_x + h.cen_y * h.cen_y

/-- `EventReconstructionHillas.preselect`, with the camera type of
`self.geoms[tel_id]` passed directly.  Mirrors the Python evaluation
order: `hillas is None` returns `False` before any table access; the
amplitude cut is looked up first (`KeyError` when absent); `and`
short-circuits, so the distance cut is looked up only when the size cut
passed, and the width test involves no lookup. -/
def preselect (cam_id : String) (hillas : Option HillasMoments) :
    Except String Bool :=
  match hillas with
  | none => .ok false
  | some h =>
    match amp_cut cam_id with
    | none => .error cam_id
    | some ac =>
      if ac < h.size then
        match dist_cut cam_id with
        | none => .error cam_id
        | some dc =>
          if distSq h < dc * dc then
            if 0 < h.width then .ok true else .ok false
          else .ok false
      else .ok false

/-- The out-of-scope collaborators of the tool, as abstract operation
records (spec section 6).  Every theorem below is proved for an
arbitrary `Externals`, so nothing depends on the numeric bodies of the
external algorithms. -/
structure Externals where
  /-- `calibrate_event`: the three staged calibrator calls, acting on
  the event container. -/
  calibrate : Event → Event
  /-- `CameraGeometry.guess(pix_x, pix_y, foclen)`. -/
  guess : List ℚ → List ℚ → ℚ → CamGeom
  /-- `CameraFrame(x, y, z=0, focal_length, rotation).transform_to(nom_system)`:
  the nominal-frame pixel coordinates, as a function of the pointing,
  the pixel positions, the focal length and the rotation argument. -/
  nomCoord : Pointing → List ℚ → List ℚ → ℚ → ℚ → List ℚ × List ℚ
  /-- `GroundFrame(x, y, z).transform_to(tilted_system)`: the x and y of
  the telescope position in the tilted-ground frame. -/
  groundToTilted : Pointing → ℚ × ℚ × ℚ → ℚ × ℚ
  /-- `project_to_ground` applied to a tilted-ground position. -/
  projectToGround : Pointing → ℚ × ℚ → ℚ × ℚ
  /-- `tailcuts_clean(geom, image, picture_thresh, boundary_thresh)`. -/
  tailcuts : CamGeom → List ℚ → ℚ → ℚ → List Bool
  /-- `dilate(geom, mask)` (the source relies on its in-place effect;
  the model takes the expanded mask as the value). -/
  dilate : CamGeom → List Bool → List Bool
  /-- `hillas_parameters(x, y, weighted_image)`; `.error` is the
  `HillasParameterizationError` raised on degenerate input. -/
  hillasParams : List ℚ → List ℚ → List ℚ → Except String HillasMoments
  /-- `self.fit.predict(hillas, event.inst, tel_phi, tel_theta)` (the
  instrument argument is the event's telescope data). -/
  fitPredict : List (ℕ × HillasMoments) → List TelData →
      List (ℕ × ℚ) → List (ℕ × ℚ) → FitResult
  /-- `self.energy_reco.set_event_properties(hillas_nom, tel_type,
  tel_x, tel_y, array_pointing)` followed by
  `self.energy_reco.predict(fit_result)`, as one function giving the
  reconstructed energy. -/
  energyPredict : List (ℕ × HillasMoments) → List (ℕ × String) →
      List (ℕ × ℚ) → List (ℕ × ℚ) → Pointing → FitResult → ℚ
  /-- `scipy.random.normal(mean, std)`: one draw from the sampler, as an
  oracle function of the mean and standard deviation. -/
  normalDraw : ℚ → ℚ → ℚ

/-- The per-event dictionaries of `reconstruct_event`, keyed by
telescope id. -/
structure EvState where
  image : List (ℕ × List ℚ)
  pixel_x : List (ℕ × List ℚ)
  pixel_y : List (ℕ × List ℚ)
  pixel_area : List (ℕ × List ℚ)
  tel_type : List (ℕ × String)
  tel_x : List (ℕ × ℚ)
  tel_y : List (ℕ × ℚ)
  hillas : List (ℕ × HillasMoments)
  hillas_nom : List (ℕ × HillasMoments)
  tel_phi : List (ℕ × ℚ)
  tel_theta : List (ℕ × ℚ)
deriving DecidableEq

/-- The empty dictionaries created at the top of `reconstruct_event`. -/
def emptyEvState : EvState :=
  { image := [], pixel_x := [], pixel_y := [], pixel_area := []
    tel_type := [], tel_x := [], tel_y := [], hillas := []
    hillas_nom := [], tel_phi := [], tel_theta := [] }

/-- `HorizonFrame(alt=run_array_direction[1], az=run_array_direction[0])`. -/
def arrayPointing (ev : Event) : Pointing :=
  { alt := ev.run_array_direction.2, az := ev.run_array_direction.1 }

/-- The geometry cache after the guard
`if tel_id not in self.geoms: self.geoms[tel_id] = CameraGeometry.guess(...)`. -/
def geomsAfter (ext : Externals) (geoms : List (ℕ × CamGeom)) (t : TelData) :
    List (ℕ × CamGeom) :=
  match dictLookup geoms t.tel_id with
  | some _ => geoms
  | none => dictInsert geoms t.tel_id (ext.guess t.pix_x t.pix_y t.foclen)

/-- `self.geoms[tel_id]` as read after the cache guard: the cached
geometry when present, the freshly guessed one otherwise. -/
def telGeom (ext : Externals) (geoms : List (ℕ × CamGeom)) (t : TelData) :
    CamGeom :=
  match dictLookup geoms t.tel_id with
  | some g => g
  | none => ext.guess t.pix_x t.pix_y t.foclen

/-- Nominal-frame pixel coordinates of one telescope: the camera frame
is built with `rotation = -1 * self.geoms[tel_id].cam_rotation` and
transformed to the nominal system. -/
def telNom (ext : Externals) (ap : Pointing) (geom : CamGeom) (t : TelData) :
    List ℚ × List ℚ :=
  ext.nomCoord ap t.pix_x t.pix_y t.foclen (-geom.cam_rotation)

/-- The cleaning mask:
`tailcuts_clean(geom, pmt_signal, picture_thresh=tail_cut[cam][1],
boundary_thresh=tail_cut[cam][0])`. -/
def cleanMask (ext : Externals) (geom : CamGeom) (t : TelData)
    (tc : ℚ × ℚ) : List Bool :=
  ext.tailcuts geom t.pmt_signal tc.2 tc.1

/-- Numpy `signal * mask`: the signal with masked-out pixels zeroed. -/
def maskMul (sig : List ℚ) (mask : List Bool) : List ℚ :=
  List.zipWith (fun s b => if b then s else 0) sig mask

/-- Numpy boolean indexing `arr[mask]`. -/
def maskSel (arr : List ℚ) (mask : List Bool) : List ℚ :=
  (List.zip arr mask).filterMap fun p => if p.2 then some p.1 else none

/-- The decision part of the per-telescope loop body, for a telescope
with geometry `geom`: clean, parameterize (camera frame then nominal
frame, both weighted by `pmt_signal * mask` with the undilated mask),
preselect, and — only on acceptance — dilate the mask twice.
`.error` is an uncaught `KeyError` (missing camera type); `.ok none` is
the `continue` taken on `HillasParameterizationError` or on a failed
preselection; `.ok (some (moments_cam, moments, mask))` carries the
values the accepted branch stores, `mask` being the twice-dilated one. -/
def telStep (ext : Externals) (ap : Pointing) (geom : CamGeom)
    (t : TelData) :
    Except String (Option (HillasMoments × HillasMoments × List Bool)) :=
  match tail_cut geom.cam_id with
  | none => .error geom.cam_id
  | some tc =>
    match ext.hillasParams t.pix_x t.pix_y
        (maskMul t.pmt_signal (cleanMask ext geom t tc)) with
    | .error _ => .ok none
    | .ok moments_cam =>
      match ext.hillasParams (telNom ext ap geom t).1 (telNom ext ap geom t).2
          (maskMul t.pmt_signal (cleanMask ext geom t tc)) with
      | .error _ => .ok none
      | .ok moments =>
        match preselect geom.cam_id (some moments) with
        | .error k => .error k
        | .ok false => .ok none
        | .ok true =>
            .ok (some (moments_cam, moments,
              ext.dilate geom (ext.dilate geom (cleanMask ext geom t tc))))

/-- The dictionary assignments of the accepted branch: `mask2` is the
twice-dilated mask, `mc`/`mn` the camera-frame and nominal-frame
moments.  `pixel_area` is `geom.pix_area / (fl*fl)` (the subsequent
`*= u.rad * u.rad` only re-tags units); `tel_phi` is the array azimuth
and `tel_theta` is `90 deg - alt`, in one consistent unit. -/
def storeTel (ext : Externals) (ap : Pointing) (geom : CamGeom)
    (t : TelData) (st : EvState) (mc mn : HillasMoments)
    (mask2 : List Bool) : EvState :=
  { image := dictInsert st.image t.tel_id (maskSel t.pmt_signal mask2)
    pixel_x := dictInsert st.pixel_x t.tel_id
      (maskSel (telNom ext ap geom t).1 mask2)
    pixel_y := dictInsert st.pixel_y t.tel_id
      (maskSel (telNom ext ap geom t).2 mask2)
    pixel_area := dictInsert st.pixel_area t.tel_id
      (geom.pix_area.map fun a => a / (t.foclen * t.foclen))
    tel_type := dictInsert st.tel_type t.tel_id geom.cam_id
    tel_x := dictInsert st.tel_x t.tel_id (ext.groundToTilted ap t.tel_pos).1
    tel_y := dictInsert st.tel_y t.tel_id (ext.groundToTilted ap t.tel_pos).2
    hillas := dictInsert st.hillas t.tel_id mc
    hillas_nom := dictInsert st.hillas_nom t.tel_id mn
    tel_phi := dictInsert st.tel_phi t.tel_id ap.az
    tel_theta := dictInsert st.tel_theta t.tel_id (90 - ap.alt) }

/-- One iteration of `for tel_id in event.dl0.tels_with_data`: update
the geometry cache, run the reduction/selection step, and commit the
dictionary assignments when the telescope is accepted. -/
def processTel (ext : Externals) (ap : Pointing)
    (geoms : List (ℕ × CamGeom)) (st : EvState) (t : TelData) :
    Except String (List (ℕ × CamGeom) × EvState) :=
  match telStep ext ap (telGeom ext geoms t) t with
  | .error e => .error e
  | .ok none => .ok (geomsAfter ext geoms t, st)
  | .ok (some r) =>
      .ok (geomsAfter ext geoms t,
        storeTel ext ap (telGeom ext geoms t) t st r.1 r.2.1 r.2.2)

/-- Whether a telescope with geometry `geom` passes reduction and
selection (cleaning succeeds, both moment computations succeed, and
`preselect` accepts). -/
def telPasses (ext : Externals) (ap : Pointing) (geom : CamGeom)
    (t : TelData) : Bool :=
  match telStep ext ap geom t with
  | .ok (some _) => true
  | _ => false

/-- The whole per-telescope loop of `reconstruct_event`. -/
def foldTels (ext : Externals) (ap : Pointing) :
    List TelData → List (ℕ × CamGeom) → EvState →
    Except String (List (ℕ × CamGeom) × EvState)
  | [], geoms, st => .ok (geoms, st)
  | t :: ts, geoms, st =>
    match processTel ext ap geoms st t with
    | .error e => .error e
    | .ok (g, st') => foldTels ext ap ts g st'

/-- The post-gate fit block: run the stereo fit, project the fitted
core from the tilted-ground frame to the ground frame (the projection's
value `core` is bound but never read afterwards in the source), then
reassign `fit_result.core_x/core_y` first to the tilted coordinates
(`core_tilt.x` is the fitted `core_x` itself) and then to normal draws
around the true simulated core with standard deviation 25.  Returns
(raw fit result, ground-projected core, fit result after the
overwrites). -/
def fitStage (ext : Externals) (ap : Pointing) (ev : Event)
    (tels : List TelData) (st : EvState) :
    FitResult × (ℚ × ℚ) × FitResult :=
  let fit0 := ext.fitPredict st.hillas tels st.tel_phi st.tel_theta
  let core := ext.projectToGround ap (fit0.core_x, fit0.core_y)
  let fit1 : FitResult := { fit0 with core_x := fit0.core_x, core_y := fit0.core_y }
  let fit2 : FitResult := { fit1 with
    core_x := ext.normalDraw ev.mc_core_x 25
    core_y := ext.normalDraw ev.mc_core_y 25 }
  (fit0, core, fit2)

/-- Everything observable about one `reconstruct_event` call: the
geometry cache afterwards, the per-event dictionaries, the raw stereo
fit result, the ground-projected core, the fit result handed to the
energy estimator, and the output row appended (if any). -/
structure RecoOutcome where
  geoms : List (ℕ × CamGeom)
  st : EvState
  fitResult : Option FitResult
  groundCore : Option (ℚ × ℚ)
  energyArg : Option FitResult
  row : Option OutputRow
deriving DecidableEq

/-- `EventReconstructionHillas.reconstruct_event`: loop over the
telescopes with data, then gate on `len(image) > 1`; inside the gate
run the fit block, the energy estimator, and append one output row. -/
def reconstruct_event (ext : Externals) (geoms : List (ℕ × CamGeom))
    (ev : Event) : Except String RecoOutcome :=
  match foldTels ext (arrayPointing ev) ev.tels geoms emptyEvState with
  | .error e => .error e
  | .ok (g, st) =>
    if 1 < st.image.length then
      let fs := fitStage ext (arrayPointing ev) ev ev.tels st
      .ok { geoms := g, st := st
            fitResult := some fs.1
            groundCore := some fs.2.1
            energyArg := some fs.2.2
            row := some { event_id := ev.event_id
                          reco_alt := fs.2.2.alt
                          reco_az := fs.2.2.az
                          reco_en := ext.energyPredict st.hillas_nom
                            st.tel_type st.tel_x st.tel_y
                            (arrayPointing ev) fs.2.2
                          sim_alt := ev.mc_alt
                          sim_az := ev.mc_az
                          sim_en := ev.mc_energy
                          ntels := st.image.length } }
    else
      .ok { geoms := g, st := st, fitResult := none, groundCore := none
            energyArg := none, row := none }

/-- The `start` loop: calibrate each event, reconstruct it, and collect
the appended output rows in order.  An uncaught exception aborts the
run with no further rows. -/
def runEvents (ext : Externals) :
    List (ℕ × CamGeom) → List Event → Except String (List OutputRow)
  | _, [] => .ok []
  | geoms, ev :: rest =>
    match reconstruct_event ext geoms (ext.calibrate ev) with
    | .error e => .error e
    | .ok out =>
      match runEvents ext out.geoms rest with
      | .error e => .error e
      | .ok rows => .ok (out.row.toList ++ rows)

/-- The geometry registry on its own: the cache after a sequence of
telescope encounters (across any number of events). -/
def registryRun (ext : Externals) (geoms : List (ℕ × CamGeom))
    (ts : List TelData) : List (ℕ × CamGeom) :=
  ts.foldl (geomsAfter ext) geoms

/-- How many times `CameraGeometry.guess` is invoked for telescope `id`
along a sequence of encounters: the cache guard calls it exactly when
the id is not yet cached. -/
def guessCount (ext : Externals) :
    List (ℕ × CamGeom) → List TelData → ℕ → ℕ
  | _, [], _ => 0
  | geoms, t :: ts, id =>
    (if t.tel_id = id ∧ dictLookup geoms t.tel_id = none then 1 else 0) +
      guessCount ext (geomsAfter ext geoms t) ts id

/-- The telescope-filter normalization in `setup`:
`if len(self.telescopes) < 2: self.telescopes = None`, the result being
passed as `allowed_tels` to the event source (`none` = no
restriction). -/
def setupTelescopes (telescopes : List ℤ) : Option (List ℤ) :=
  if telescopes.length < 2 then none else some telescopes

/-- A concrete dilation on a three-pixel chain camera (each pixel's
neighbours are its list neighbours; other cameras are left unchanged),
used to instantiate the abstract `dilate` operator in closed
witnesses. -/
def chainDilate (_geom : CamGeom) (m : List Bool) : List Bool :=
  match m with
  | [a, b, c] => [a || b, a || b || c, b || c]
  | other => other

/-- A concrete instantiation of the external collaborators on a
three-pixel chain camera of type "LSTCam": cleaning keeps pixels above
the picture threshold, the moments' size is the sum of the weighted
image, the fit returns a fixed result, the ground projection shifts by
one, and the normal sampler returns mean plus standard deviation. -/
def extC : Externals :=
  { calibrate := id
    guess := fun _ _ _ => { cam_id := "LSTCam", cam_rotation := 0, pix_area := [1, 1, 1] }
    nomCoord := fun _ px py _ _ => (px, py)
    groundToTilted := fun _ p => (p.1, p.2.1)
    projectToGround := fun _ p => (p.1 + 1, p.2 + 1)
    tailcuts := fun _ sig pic _ => sig.map fun s => decide (pic < s)
    dilate := chainDilate
    hillasParams := fun _ _ w =>
      .ok { size := w.sum, cen_x := 0, cen_y := 0, width := 1, length := 2 }
    fitPredict := fun _ _ _ _ => { alt := 1 / 2, az := 1 / 3, core_x := 7, core_y := 9 }
    energyPredict := fun _ _ _ _ _ f => f.core_x + f.core_y
    normalDraw := fun m s => m + s }

/-- A concrete telescope whose image passes cleaning and selection
under `extC`. -/
def t1 : TelData :=
  { tel_id := 1, pmt_signal := [200, 50, 2], pix_x := [0, 1, 2]
    pix_y := [0, 0, 0], foclen := 1, tel_pos := (0, 0, 0) }

/-- A second such telescope, with a different id. -/
def t2 : TelData :=
  { tel_id := 2, pmt_signal := [200, 50, 2], pix_x := [0, 1, 2]
    pix_y := [0, 0, 0], foclen := 1, tel_pos := (0, 0, 0) }

/-- A concrete two-telescope event. -/
def evC : Event :=
  { event_id := 42, run_array_direction := (0, 0), tels := [t1, t2]
    mc_core_x := 3, mc_core_y := 4, mc_alt := 5, mc_az := 6, mc_energy := 7 }

/-- `extC` with a moment computation that always raises
`HillasParameterizationError`. -/
def extErr : Externals :=
  { extC with hillasParams := fun _ _ _ => .error "HillasParameterizationError" }

/-- `extC` with a camera type that has no entry in any cut table. -/
def extBad : Externals :=
  { extC with guess := fun _ _ _ =>
      { cam_id := "ASTRICam", cam_rotation := 0, pix_area := [1, 1, 1] } }

/-- A one-telescope event, for the fatal-lookup witness. -/
def evBad : Event := { evC with tels := [t1] }

/-- A concrete cached geometry for the registry witness. -/
def gLST : CamGeom :=
  { cam_id := "LSTCam", cam_rotation := 0, pix_area := [1, 1, 1] }

/-- A telescope record with id 5 and pixel arrays different from
anything previously seen, for the cache-reuse witness. -/
def t5 : TelData :=
  { tel_id := 5, pmt_signal := [], pix_x := [9, 9], pix_y := [9, 9]
    foclen := 2, tel_pos := (1, 1, 1) }

/-- The array pointing of the concrete event `evC`. -/
def apC : Pointing := arrayPointing evC

theorem dictLookup_dictInsert_self {α : Type} (l : List (ℕ × α)) (k : ℕ)
    (v : α) : dictLookup (dictInsert l k v) k = some v := by
  induction l with
  | nil => simp [dictInsert, dictLookup]
  | cons p rest ih =>
    obtain ⟨k', v'⟩ := p
    by_cases h : k' = k
    · simp [dictInsert, dictLookup, h]
    · simp [dictInsert, dictLookup, h, ih]

theorem dictLookup_dictInsert_ne {α : Type} (l : List (ℕ × α)) (k k' : ℕ)
    (v : α) (h : k ≠ k') :
    dictLookup (dictInsert l k v) k' = dictLookup l k' := by
  induction l with
  | nil => simp [dictInsert, dictLookup, h]
  | cons p rest ih =>
    obtain ⟨a, b⟩ := p
    by_cases ha : a = k
    · subst ha; simp [dictInsert, dictLookup, h]
    · by_cases hb : a = k'
      · subst hb; simp [dictInsert, dictLookup, ha]
      · simp [dictInsert, dictLookup, ha, hb, ih]

theorem dictLookup_eq_none_iff {α : Type} (l : List (ℕ × α)) (k : ℕ) :
    dictLookup l k = none ↔ k ∉ dictKeys l := by
  induction l with
  | nil => simp [dictLookup, dictKeys]
  | cons p rest ih =>
    obtain ⟨a, b⟩ := p
    by_cases ha : a = k
    · subst ha; simp [dictLookup, dictKeys]
    · simp [dictLookup, dictKeys, ha, ih, Ne.symm ha]

theorem mem_dictKeys_dictInsert {α : Type} (l : List (ℕ × α)) (k a : ℕ)
    (v : α) :
    a ∈ dictKeys (dictInsert l k v) ↔ a = k ∨ a ∈ dictKeys l := by
  induction l with
  | nil => simp [dictInsert, dictKeys, eq_comm]
  | cons p rest ih =>
    obtain ⟨k', v'⟩ := p
    by_cases h : k' = k
    · subst h; simp [dictInsert, dictKeys, eq_comm]
    · simp only [dictInsert, if_neg h, dictKeys, List.map_cons, List.mem_cons]
      rw [show dictKeys (dictInsert rest k v) =
        (dictInsert rest k v).map Prod.fst from rfl] at ih
      rw [show dictKeys rest = rest.map Prod.fst from rfl] at ih
      rw [ih]
      tauto

theorem length_dictInsert {α : Type} (l : List (ℕ × α)) (k : ℕ) (v : α)
    (h : k ∉ dictKeys l) : (dictInsert l k v).length = l.length + 1 := by
  induction l with
  | nil => simp [dictInsert]
  | cons p rest ih =>
    obtain ⟨a, b⟩ := p
    simp only [dictKeys, List.map_cons, List.mem_cons] at h
    push_neg at h
    simp only [dictInsert, if_neg (Ne.symm h.1), List.length_cons]
    rw [ih h.2]

theorem dictLookup_geomsAfter (ext : Externals) (geoms : List (ℕ × CamGeom))
    (t : TelData) (id : ℕ) :
    dictLookup (geomsAfter ext geoms t) id =
      if t.tel_id = id then some (telGeom ext geoms t)
      else dictLookup geoms id := by
  unfold geomsAfter telGeom
  cases hg : dictLookup geoms t.tel_id with
  | some g =>
    by_cases h : t.tel_id = id
    · subst h; simp [hg]
    · simp [h]
  | none =>
    by_cases h : t.tel_id = id
    · subst h; simp [dictLookup_dictInsert_self]
    · simp [h, dictLookup_dictInsert_ne _ _ _ _ h]

theorem telGeom_geomsAfter_ne (ext : Externals)
    (geoms : List (ℕ × CamGeom)) (t t' : TelData)
    (h : t'.tel_id ≠ t.tel_id) :
    telGeom ext (geomsAfter ext geoms t) t' = telGeom ext geoms t' := by
  unfold telGeom
  rw [dictLookup_geomsAfter, if_neg fun hh => h hh.symm]

theorem dictLookup_registryRun_of_some (ext : Externals) :
    ∀ (ts : List TelData) (geoms : List (ℕ × CamGeom)) (id : ℕ)
      (g : CamGeom), dictLookup geoms id = some g →
      dictLookup (registryRun ext geoms ts) id = some g := by
  intro ts
  induction ts with
  | nil => intro geoms id g h; simpa [registryRun] using h
  | cons t ts ih =>
    intro geoms id g h
    show dictLookup (registryRun ext (geomsAfter ext geoms t) ts) id = some g
    apply ih
    rw [dictLookup_geomsAfter]
    by_cases ht : t.tel_id = id
    · subst ht
      unfold telGeom
      simp [h]
    · simp [ht, h]

theorem guessCount_of_cached (ext : Externals) :
    ∀ (ts : List TelData) (geoms : List (ℕ × CamGeom)) (id : ℕ)
      (g : CamGeom), dictLookup geoms id = some g →
      guessCount ext geoms ts id = 0 := by
  intro ts
  induction ts with
  | nil => intro geoms id g _; rfl
  | cons t ts ih =>
    intro geoms id g h
    unfold guessCount
    have hrest : dictLookup (geomsAfter ext geoms t) id = some g := by
      rw [dictLookup_geomsAfter]
      by_cases ht : t.tel_id = id
      · subst ht; unfold telGeom; simp [h]
      · simp [ht, h]
    rw [ih _ _ g hrest]
    by_cases ht : t.tel_id = id
    · subst ht; simp [h]
    · rw [if_neg fun hc => ht hc.1]

theorem guessCount_le_one (ext : Externals) :
    ∀ (ts : List TelData) (geoms : List (ℕ × CamGeom)) (id : ℕ),
      guessCount ext geoms ts id ≤ 1 := by
  intro ts
  induction ts with
  | nil => intro geoms id; simp [guessCount]
  | cons t ts ih =>
    intro geoms id
    unfold guessCount
    by_cases hc : t.tel_id = id ∧ dictLookup geoms t.tel_id = none
    · rw [if_pos hc]
      have hcached :
          dictLookup (geomsAfter ext geoms t) id =
            some (telGeom ext geoms t) := by
        rw [dictLookup_geomsAfter, if_pos hc.1]
      rw [guessCount_of_cached ext ts _ id _ hcached]
    · rw [if_neg hc]
      simpa using ih (geomsAfter ext geoms t) id

theorem countP_ext {α : Type} (p q : α → Bool) :
    ∀ l : List α, (∀ a ∈ l, p a = q a) → l.countP p = l.countP q := by
  intro l
  induction l with
  | nil => intro _; rfl
  | cons a l ih =>
    intro h
    rw [List.countP_cons, List.countP_cons, h a (by simp),
      ih fun b hb => h b (by simp [hb])]

theorem processTel_ok (ext : Externals) (ap : Pointing)
    (geoms : List (ℕ × CamGeom)) (st : EvState) (t : TelData)
    (g : List (ℕ × CamGeom)) (st' : EvState)
    (h : processTel ext ap geoms st t = .ok (g, st')) :
    g = geomsAfter ext geoms t ∧
    ((telPasses ext ap (telGeom ext geoms t) t = false ∧ st' = st) ∨
     (telPasses ext ap (telGeom ext geoms t) t = true ∧
       ∃ r, telStep ext ap (telGeom ext geoms t) t = .ok (some r) ∧
         st' = storeTel ext ap (telGeom ext geoms t) t st r.1 r.2.1 r.2.2)) := by
  unfold processTel at h
  cases hts : telStep ext ap (telGeom ext geoms t) t with
  | error e => rw [hts] at h; cases h
  | ok o =>
    rw [hts] at h
    cases o with
    | none =>
      simp only [Except.ok.injEq, Prod.mk.injEq] at h
      exact ⟨h.1.symm, Or.inl ⟨by simp [telPasses, hts], h.2.symm⟩⟩
    | some r =>
      simp only [Except.ok.injEq, Prod.mk.injEq] at h
      exact ⟨h.1.symm,
        Or.inr ⟨by simp [telPasses, hts], r, rfl, h.2.symm⟩⟩

theorem registryRun_stable (ext : Externals) :
    ∀ (ts : List TelData) (geoms : List (ℕ × CamGeom)) (id : ℕ),
      (∀ t ∈ ts, t.tel_id ≠ id) →
      dictLookup (registryRun ext geoms ts) id = dictLookup geoms id := by
  intro ts
  induction ts with
  | nil => intro geoms id _; rfl
  | cons t ts ih =>
    intro geoms id hid
    show dictLookup (registryRun ext (geomsAfter ext geoms t) ts) id = _
    rw [ih _ _ fun u hu => hid u (by simp [hu]), dictLookup_geomsAfter,
      if_neg (hid t (by simp))]

theorem foldTels_registry (ext : Externals) (ap : Pointing) :
    ∀ (ts : List TelData) (geoms : List (ℕ × CamGeom)) (st : EvState)
      (g' : List (ℕ × CamGeom)) (st' : EvState),
      foldTels ext ap ts geoms st = .ok (g', st') →
      g' = registryRun ext geoms ts := by
  intro ts
  induction ts with
  | nil =>
    intro geoms st g' st' h
    simp only [foldTels, Except.ok.injEq, Prod.mk.injEq] at h
    exact h.1.symm
  | cons t ts ih =>
    intro geoms st g' st' h
    unfold foldTels at h
    cases hp : processTel ext ap geoms st t with
    | error e => rw [hp] at h; cases h
    | ok p =>
      rw [hp] at h
      obtain ⟨g1, st1⟩ := p
      have := (processTel_ok ext ap geoms st t g1 st1 hp).1
      subst this
      exact ih _ _ _ _ h

theorem foldTels_image_length (ext : Externals) (ap : Pointing) :
    ∀ (ts : List TelData) (geoms : List (ℕ × CamGeom)) (st : EvState)
      (g' : List (ℕ × CamGeom)) (st' : EvState),
      foldTels ext ap ts geoms st = .ok (g', st') →
      (ts.map TelData.tel_id).Nodup →
      (∀ t ∈ ts, t.tel_id ∉ dictKeys st.image) →
      st'.image.length = st.image.length +
        ts.countP fun t => telPasses ext ap (telGeom ext geoms t) t := by
  intro ts
  induction ts with
  | nil =>
    intro geoms st g' st' h _ _
    simp only [foldTels, Except.ok.injEq, Prod.mk.injEq] at h
    simp [h.2.symm]
  | cons t ts ih =>
    intro geoms st g' st' h hnd hkeys
    unfold foldTels at h
    cases hp : processTel ext ap geoms st t with
    | error e => rw [hp] at h; cases h
    | ok p =>
      rw [hp] at h
      obtain ⟨g1, st1⟩ := p
      obtain ⟨hg1, hcase⟩ := processTel_ok ext ap geoms st t g1 st1 hp
      subst hg1
      have hnd' : (ts.map TelData.tel_id).Nodup :=
        (List.nodup_cons.mp hnd).2
      have hne : ∀ u ∈ ts, u.tel_id ≠ t.tel_id := by
        intro u hu he
        exact (List.nodup_cons.mp hnd).1 (he ▸ List.mem_map_of_mem _ hu)
      have hcong :
          ts.countP (fun u =>
            telPasses ext ap (telGeom ext (geomsAfter ext geoms t) u) u) =
          ts.countP fun u => telPasses ext ap (telGeom ext geoms u) u := by
        apply countP_ext
        intro u hu
        rw [telGeom_geomsAfter_ne ext geoms t u (hne u hu)]
      rcases hcase with ⟨hpass, hst1⟩ | ⟨hpass, r, _, hst1⟩
      · subst hst1
        have := ih (geomsAfter ext geoms t) st1 g' st' h hnd' fun u hu =>
          hkeys u (by simp [hu])
        rw [this, hcong, List.countP_cons, hpass]
        simp
      · have hkey : t.tel_id ∉ dictKeys st.image := hkeys t (by simp)
        have himg : st1.image =
            dictInsert st.image t.tel_id (maskSel t.pmt_signal r.2.2) := by
          rw [hst1]; rfl
        have hlen1 : st1.image.length = st.image.length + 1 := by
          rw [himg, length_dictInsert _ _ _ hkey]
        have hkeys1 : ∀ u ∈ ts, u.tel_id ∉ dictKeys st1.image := by
          intro u hu hmem
          rw [himg] at hmem
          rcases (mem_dictKeys_dictInsert _ _ _ _).mp hmem with he | hm
          · exact hne u hu he
          · exact hkeys u (by simp [hu]) hm
        have := ih (geomsAfter ext geoms t) st1 g' st' h hnd' hkeys1
        rw [this, hcong, hlen1, List.countP_cons, hpass]
        simp
        omega

theorem reconstruct_event_parts (ext : Externals)
    (geoms : List (ℕ × CamGeom)) (ev : Event) (out : RecoOutcome)
    (h : reconstruct_event ext geoms ev = .ok out) :
    ∃ g st,
      foldTels ext (arrayPointing ev) ev.tels geoms emptyEvState =
        .ok (g, st) ∧
      out.geoms = g ∧ out.st = st ∧
      (if 1 < st.image.length then
        out.fitResult =
          some (fitStage ext (arrayPointing ev) ev ev.tels st).1 ∧
        out.groundCore =
          some (fitStage ext (arrayPointing ev) ev ev.tels st).2.1 ∧
        out.energyArg =
          some (fitStage ext (arrayPointing ev) ev ev.tels st).2.2 ∧
        out.row = some
          { event_id := ev.event_id
            reco_alt := (fitStage ext (arrayPointing ev) ev ev.tels st).2.2.alt
            reco_az := (fitStage ext (arrayPointing ev) ev ev.tels st).2.2.az
            reco_en := ext.energyPredict st.hillas_nom st.tel_type
              st.tel_x st.tel_y (arrayPointing ev)
              (fitStage ext (arrayPointing ev) ev ev.tels st).2.2
            sim_alt := ev.mc_alt
            sim_az := ev.mc_az
            sim_en := ev.mc_energy
            ntels := st.image.length }
      else
        out.fitResult = none ∧ out.groundCore = none ∧
        out.energyArg = none ∧ out.row = none) := by
  unfold reconstruct_event at h
  split at h
  next e hf => cases h
  next g st hf =>
    refine ⟨g, st, hf, ?_⟩
    split at h
    next hgate =>
      simp only [Except.ok.injEq] at h
      subst h
      rw [if_pos hgate]
      exact ⟨rfl, rfl, ⟨rfl, rfl, rfl, rfl⟩⟩
    next hgate =>
      simp only [Except.ok.injEq] at h
      subst h
      rw [if_neg hgate]
      exact ⟨rfl, rfl, ⟨rfl, rfl, rfl, rfl⟩⟩

/-- C1: for every event, the pipeline proceeds to the stereoscopic fit,
the energy estimate, and the appending of exactly one output row if and
only if strictly more than one telescope passed reduction and
selection; an event with zero or exactly one passing telescope
contributes no output row, and the run continues with the remaining
events. -/
theorem multiplicity_gate (ext : Externals) (geoms : List (ℕ × CamGeom))
    (ev : Event) (out : RecoOutcome) (n : ℕ)
    (h : reconstruct_event ext geoms (ext.calibrate ev) = .ok out)
    (hnd : ((ext.calibrate ev).tels.map TelData.tel_id).Nodup)
    (hn : n = (ext.calibrate ev).tels.countP fun t =>
        telPasses ext (arrayPointing (ext.calibrate ev))
          (telGeom ext geoms t) t) :
    ((out.row.isSome = true ∧ out.fitResult.isSome = true ∧
        out.energyArg.isSome = true) ↔ 1 < n) ∧
    ((out.row = none ∧ out.fitResult = none ∧ out.energyArg = none) ↔
        n ≤ 1) ∧
    (∀ r, out.row = some r → r.ntels = n) ∧
    (out.row.toList.length = if 1 < n then 1 else 0) ∧
    (∀ rest, runEvents ext geoms (ev :: rest) =
      (runEvents ext out.geoms rest).map fun rows => out.row.toList ++ rows) := by
  obtain ⟨g, st, hf, hgeoms, hst, hif⟩ :=
    reconstruct_event_parts ext geoms (ext.calibrate ev) out h
  have hlen : st.image.length = n := by
    have := foldTels_image_length ext (arrayPointing (ext.calibrate ev))
      (ext.calibrate ev).tels geoms emptyEvState g st hf hnd
      (by intro t _ hmem; simp [emptyEvState, dictKeys] at hmem)
    rw [hn]
    simpa [emptyEvState] using this
  have hrun : ∀ rest, runEvents ext geoms (ev :: rest) =
      (runEvents ext out.geoms rest).map fun rows => out.row.toList ++ rows := by
    intro rest
    cases hr : runEvents ext out.geoms rest <;>
      simp [runEvents, h, hr, Except.map]
  by_cases hgate : 1 < st.image.length
  · rw [if_pos hgate] at hif
    obtain ⟨h1, h2, h3, h4⟩ := hif
    rw [hlen] at hgate
    refine ⟨?_, ?_, ?_, ?_, hrun⟩
    · simp [h1, h3, h4, hgate]
    · simp [h1, h3, h4]
      omega
    · intro r hr
      rw [h4] at hr
      simp only [Option.some.injEq] at hr
      rw [← hr, hlen]
    · simp [h4, hgate]
  · rw [if_neg hgate] at hif
    obtain ⟨h1, h2, h3, h4⟩ := hif
    rw [hlen] at hgate
    refine ⟨?_, ?_, ?_, ?_, hrun⟩
    · simp [h1, h3, h4, hgate]
    · simp [h1, h3, h4]
      omega
    · intro r hr
      rw [h4] at hr
      cases hr
    · simp [h4, hgate]

/-- Witness for C1 at the concrete two-telescope event `evC`: both
telescopes pass, so the event produces a row. -/
theorem multiplicity_gate_witness :
    (reconstruct_event extC [] (extC.calibrate evC)).toOption.map
      (fun o => o.row.isSome) = some true := by
  cases hrec : reconstruct_event extC [] (extC.calibrate evC) with
  | error e =>
    have hsome : (reconstruct_event extC [] (extC.calibrate evC)).toOption.isSome
        = true := by
      norm_num [reconstruct_event, foldTels, processTel, telStep, storeTel,
        telGeom, geomsAfter, telNom, cleanMask, maskMul, maskSel, preselect,
        amp_cut, dist_cut, tail_cut, distSq, dictLookup, dictInsert,
        emptyEvState, arrayPointing, fitStage, extC, evC, t1, t2, chainDilate,
        Except.toOption]
    rw [hrec] at hsome
    simp [Except.toOption] at hsome
  | ok out =>
    have hmain := multiplicity_gate extC [] evC out
      ((extC.calibrate evC).tels.countP fun t =>
        telPasses extC (arrayPointing (extC.calibrate evC))
          (telGeom extC [] t) t)
      hrec (by norm_num [extC, evC, t1, t2]) rfl
    have hgt : 1 < (extC.calibrate evC).tels.countP fun t =>
        telPasses extC (arrayPointing (extC.calibrate evC))
          (telGeom extC [] t) t := by
      norm_num [telPasses, telStep, telGeom, geomsAfter, telNom, cleanMask,
        maskMul, preselect, amp_cut, dist_cut, tail_cut, distSq, dictLookup,
        dictInsert, arrayPointing, extC, evC, t1, t2, chainDilate,
        List.countP_cons]
    have hrow := (hmain.1.mpr hgt).1
    simp [Except.toOption, hrow]

theorem dist_cut_pos (cam : String) (dc : ℚ) (h : dist_cut cam = some dc) :
    0 < dc := by
  unfold dist_cut at h
  split_ifs at h <;>
    · injection h with h
      rw [← h]
      norm_num

theorem sqrt_lt_pos_iff (x y dc : ℚ) (hdc : 0 < dc) :
    Real.sqrt ((x : ℝ) * x + (y : ℝ) * y) < (dc : ℝ) ↔
      x * x + y * y < dc * dc := by
  have h1 : (x : ℝ) * x + (y : ℝ) * y = ((x * x + y * y : ℚ) : ℝ) := by
    push_cast
    ring
  rw [h1, Real.sqrt_lt' (by exact_mod_cast hdc), sq]
  constructor
  · intro h; exact_mod_cast h
  · intro h; exact_mod_cast h

/-- C2: the selector returns `False` when moments are absent, and
otherwise returns `True` if and only if the size strictly exceeds the
camera type's amplitude cut, the radial centroid distance
`sqrt(cen_x^2 + cen_y^2)` is strictly below the camera type's distance
cut, and the width is strictly positive; in particular any
`width == 0` image is rejected regardless of size and distance. -/
theorem preselect_spec (cam : String) (h : HillasMoments) (ac dc : ℚ)
    (hac : amp_cut cam = some ac) (hdc : dist_cut cam = some dc) :
    preselect cam none = .ok false ∧
    (preselect cam (some h) = .ok true ↔
      ac < h.size ∧
      Real.sqrt ((h.cen_x : ℝ) * h.cen_x + (h.cen_y : ℝ) * h.cen_y) <
        (dc : ℝ) ∧
      0 < h.width) := by
  refine ⟨rfl, ?_⟩
  rw [sqrt_lt_pos_iff h.cen_x h.cen_y dc (dist_cut_pos cam dc hdc)]
  unfold preselect distSq
  simp only [hac, hdc]
  split_ifs with h1 h2 h3 <;> simp_all

/-- Witness for C2 at the spec's own scenario: camera "LSTCam"
(amplitude cut 100, distance cut 2), size 150, centroid at distance 1,
width 1/20: accepted. -/
theorem preselect_spec_witness :
    preselect "LSTCam"
      (some { size := 150, cen_x := 1, cen_y := 0, width := 1 / 20,
              length := 1 }) = .ok true := by
  refine (preselect_spec "LSTCam"
    { size := 150, cen_x := 1, cen_y := 0, width := 1 / 20, length := 1 }
    100 2 (by norm_num [amp_cut]) (by norm_num [dist_cut])).2.mpr
    ⟨by norm_num, ?_, by norm_num⟩
  show Real.sqrt (((1 : ℚ) : ℝ) * ((1 : ℚ) : ℝ) +
    ((0 : ℚ) : ℝ) * ((0 : ℚ) : ℝ)) < ((2 : ℚ) : ℝ)
  have h1 : ((1 : ℚ) : ℝ) * ((1 : ℚ) : ℝ) +
      ((0 : ℚ) : ℝ) * ((0 : ℚ) : ℝ) = 1 := by norm_num
  rw [h1, Real.sqrt_one]
  norm_num

/-- C9: selection is monotone in image size: for a fixed camera type
and fixed moments with centroid distance strictly below the distance
cut and width strictly positive, any size less than or equal to the
amplitude cut is rejected and any size strictly greater than the
amplitude cut is accepted. -/
theorem preselect_size_monotone (cam : String) (h : HillasMoments)
    (ac dc s₁ s₂ : ℚ)
    (hac : amp_cut cam = some ac) (hdc : dist_cut cam = some dc)
    (hdist : Real.sqrt ((h.cen_x : ℝ) * h.cen_x + (h.cen_y : ℝ) * h.cen_y) <
      (dc : ℝ))
    (hw : 0 < h.width) (h1 : s₁ ≤ ac) (h2 : ac < s₂) :
    preselect cam (some { h with size := s₁ }) = .ok false ∧
    preselect cam (some { h with size := s₂ }) = .ok true := by
  have hd : h.cen_x * h.cen_x + h.cen_y * h.cen_y < dc * dc :=
    (sqrt_lt_pos_iff h.cen_x h.cen_y dc (dist_cut_pos cam dc hdc)).mp hdist
  constructor
  · unfold preselect
    simp only [hac]
    rw [if_neg]
    simp only [not_lt]
    exact h1
  · unfold preselect distSq
    simp only [hac, hdc]
    rw [if_pos h2, if_pos (by simpa using hd), if_pos (by simpa using hw)]

/-- Witness for C9: on "LSTCam" with centroid distance 1 and width
1/20, size 100 (the cut itself) is rejected and size 101 is
accepted. -/
theorem preselect_size_monotone_witness :
    preselect "LSTCam"
      (some { size := 100, cen_x := 1, cen_y := 0, width := 1 / 20,
              length := 1 }) = .ok false ∧
    preselect "LSTCam"
      (some { size := 101, cen_x := 1, cen_y := 0, width := 1 / 20,
              length := 1 }) = .ok true := by
  have := preselect_size_monotone "LSTCam"
    { size := 0, cen_x := 1, cen_y := 0, width := 1 / 20, length := 1 }
    100 2 100 101 (by norm_num [amp_cut]) (by norm_num [dist_cut])
    (by
      show Real.sqrt (((1 : ℚ) : ℝ) * ((1 : ℚ) : ℝ) +
        ((0 : ℚ) : ℝ) * ((0 : ℚ) : ℝ)) < ((2 : ℚ) : ℝ)
      have h1 : ((1 : ℚ) : ℝ) * ((1 : ℚ) : ℝ) +
          ((0 : ℚ) : ℝ) * ((0 : ℚ) : ℝ) = 1 := by norm_num
      rw [h1, Real.sqrt_one]
      norm_num)
    (by norm_num) (by norm_num) (by norm_num)
  exact this

theorem foldTels_cons (ext : Externals) (ap : Pointing) (t : TelData)
    (ts : List TelData) (geoms : List (ℕ × CamGeom)) (st : EvState) :
    foldTels ext ap (t :: ts) geoms st =
      match processTel ext ap geoms st t with
      | .error e => Except.error e
      | .ok (g, st') => foldTels ext ap ts g st' := rfl

theorem foldTels_append (ext : Externals) (ap : Pointing) :
    ∀ (xs ys : List TelData) (geoms : List (ℕ × CamGeom)) (st : EvState),
      foldTels ext ap (xs ++ ys) geoms st =
        match foldTels ext ap xs geoms st with
        | .error e => Except.error e
        | .ok (g, st') => foldTels ext ap ys g st' := by
  intro xs
  induction xs with
  | nil => intro ys geoms st; rfl
  | cons t xs ih =>
    intro ys geoms st
    rw [List.cons_append, foldTels_cons, foldTels_cons]
    cases hp : processTel ext ap geoms st t with
    | error e => rfl
    | ok p =>
      obtain ⟨g, st'⟩ := p
      exact ih ys g st'

/-- Full evaluation of the reconstruction of the concrete event `evC`
under the concrete externals `extC`. -/
theorem evC_reco_eval : reconstruct_event extC [] evC = .ok
    { geoms := [(1, { cam_id := "LSTCam", cam_rotation := 0, pix_area := [1, 1, 1] }),
                (2, { cam_id := "LSTCam", cam_rotation := 0, pix_area := [1, 1, 1] })]
      st := { image := [(1, [200, 50, 2]), (2, [200, 50, 2])]
              pixel_x := [(1, [0, 1, 2]), (2, [0, 1, 2])]
              pixel_y := [(1, [0, 0, 0]), (2, [0, 0, 0])]
              pixel_area := [(1, [1, 1, 1]), (2, [1, 1, 1])]
              tel_type := [(1, "LSTCam"), (2, "LSTCam")]
              tel_x := [(1, 0), (2, 0)]
              tel_y := [(1, 0), (2, 0)]
              hillas := [(1, { size := 250, cen_x := 0, cen_y := 0,
                               width := 1, length := 2 }),
                         (2, { size := 250, cen_x := 0, cen_y := 0,
                               width := 1, length := 2 })]
              hillas_nom := [(1, { size := 250, cen_x := 0, cen_y := 0,
                                   width := 1, length := 2 }),
                             (2, { size := 250, cen_x := 0, cen_y := 0,
                                   width := 1, length := 2 })]
              tel_phi := [(1, 0), (2, 0)]
              tel_theta := [(1, 90), (2, 90)] }
      fitResult := some { alt := 1 / 2, az := 1 / 3, core_x := 7, core_y := 9 }
      groundCore := some (8, 10)
      energyArg := some { alt := 1 / 2, az := 1 / 3, core_x := 28, core_y := 29 }
      row := some { event_id := 42, reco_alt := 1 / 2, reco_az := 1 / 3,
                    reco_en := 57, sim_alt := 5, sim_az := 6, sim_en := 7,
                    ntels := 2 } } := by
  norm_num [reconstruct_event, foldTels, processTel, telStep, storeTel, telGeom,
    geomsAfter, telNom, cleanMask, maskMul, maskSel, preselect, amp_cut, dist_cut,
    tail_cut, distSq, dictLookup, dictInsert, emptyEvState, arrayPointing, fitStage,
    extC, evC, t1, t2, chainDilate, List.filterMap_cons, List.filterMap_nil]

/-- C3 counterexample: under the concrete externals `extC` the
telescope `t1` is accepted and the stored camera-frame moments have
size 250 — the moments of the signal masked by the *undilated*
cleaning mask — while the moments of the signal masked by the
twice-dilated mask have size 252.  So the moment computations are not
masked by the dilated mask, contrary to the claim. -/
theorem reducer_mask_order_counterexample :
    ((processTel extC apC [] emptyEvState t1).toOption.map fun p =>
      dictLookup p.2.hillas 1) =
      some (some { size := 250, cen_x := 0, cen_y := 0, width := 1,
                   length := 2 }) ∧
    extC.hillasParams t1.pix_x t1.pix_y (maskMul t1.pmt_signal
      (extC.dilate (telGeom extC [] t1) (extC.dilate (telGeom extC [] t1)
        (cleanMask extC (telGeom extC [] t1) t1 (8, 16))))) =
      .ok { size := 252, cen_x := 0, cen_y := 0, width := 1, length := 2 } ∧
    ({ size := 250, cen_x := 0, cen_y := 0, width := 1, length := 2 } :
        HillasMoments) ≠
      { size := 252, cen_x := 0, cen_y := 0, width := 1, length := 2 } := by
  refine ⟨?_, ?_, ?_⟩
  · norm_num [processTel, telStep, storeTel, telGeom, geomsAfter, telNom,
      cleanMask, maskMul, maskSel, preselect, amp_cut, dist_cut, tail_cut,
      distSq, dictLookup, dictInsert, emptyEvState, extC, t1, apC,
      arrayPointing, evC, chainDilate, Except.toOption,
      List.filterMap_cons, List.filterMap_nil]
  · norm_num [telGeom, cleanMask, maskMul, dictLookup, extC, t1, chainDilate]
  · intro h
    injection h with h
    norm_num at h

/-- C3 (amended): for every telescope, the reducer first builds the
cleaning mask, computes both Hillas moment sets (camera-frame and
nominal-frame) over the signal masked by the *undilated* cleaning
mask, and only for a telescope passing preselection dilates the mask
exactly twice, the twice-dilated mask being the one that selects the
stored pixel positions and signal values. -/
theorem reducer_mask_order (ext : Externals) (ap : Pointing)
    (geoms : List (ℕ × CamGeom)) (st : EvState) (t : TelData)
    (g : CamGeom) (tc : ℚ × ℚ) (mc mn : HillasMoments)
    (hg : g = telGeom ext geoms t)
    (htc : tail_cut g.cam_id = some tc)
    (hmc : ext.hillasParams t.pix_x t.pix_y
      (maskMul t.pmt_signal (cleanMask ext g t tc)) = .ok mc)
    (hmn : ext.hillasParams (telNom ext ap g t).1 (telNom ext ap g t).2
      (maskMul t.pmt_signal (cleanMask ext g t tc)) = .ok mn)
    (hsel : preselect g.cam_id (some mn) = .ok true) :
    processTel ext ap geoms st t = .ok (geomsAfter ext geoms t,
      storeTel ext ap g t st mc mn
        (ext.dilate g (ext.dilate g (cleanMask ext g t tc)))) ∧
    dictLookup (storeTel ext ap g t st mc mn
      (ext.dilate g (ext.dilate g (cleanMask ext g t tc)))).hillas
        t.tel_id = some mc ∧
    dictLookup (storeTel ext ap g t st mc mn
      (ext.dilate g (ext.dilate g (cleanMask ext g t tc)))).hillas_nom
        t.tel_id = some mn ∧
    dictLookup (storeTel ext ap g t st mc mn
      (ext.dilate g (ext.dilate g (cleanMask ext g t tc)))).image
        t.tel_id = some (maskSel t.pmt_signal
          (ext.dilate g (ext.dilate g (cleanMask ext g t tc)))) ∧
    dictLookup (storeTel ext ap g t st mc mn
      (ext.dilate g (ext.dilate g (cleanMask ext g t tc)))).pixel_x
        t.tel_id = some (maskSel (telNom ext ap g t).1
          (ext.dilate g (ext.dilate g (cleanMask ext g t tc)))) := by
  subst hg
  have hstep : telStep ext ap (telGeom ext geoms t) t =
      .ok (some (mc, mn, ext.dilate (telGeom ext geoms t)
        (ext.dilate (telGeom ext geoms t)
          (cleanMask ext (telGeom ext geoms t) t tc)))) := by
    unfold telStep
    simp only [htc, hmc, hmn, hsel]
  refine ⟨?_, ?_, ?_, ?_, ?_⟩
  · unfold processTel
    rw [hstep]
  · exact dictLookup_dictInsert_self _ _ _
  · exact dictLookup_dictInsert_self _ _ _
  · exact dictLookup_dictInsert_self _ _ _
  · exact dictLookup_dictInsert_self _ _ _

/-- Witness for the amended C3 at the concrete telescope `t1`. -/
theorem reducer_mask_order_witness :
    processTel extC apC [] emptyEvState t1 = .ok (geomsAfter extC [] t1,
      storeTel extC apC (telGeom extC [] t1) t1 emptyEvState
        { size := 250, cen_x := 0, cen_y := 0, width := 1, length := 2 }
        { size := 250, cen_x := 0, cen_y := 0, width := 1, length := 2 }
        (extC.dilate (telGeom extC [] t1) (extC.dilate (telGeom extC [] t1)
          (cleanMask extC (telGeom extC [] t1) t1 (8, 16))))) := by
  have h := reducer_mask_order extC apC [] emptyEvState t1
    (telGeom extC [] t1) (8, 16)
    { size := 250, cen_x := 0, cen_y := 0, width := 1, length := 2 }
    { size := 250, cen_x := 0, cen_y := 0, width := 1, length := 2 }
    rfl
    (by norm_num [telGeom, dictLookup, extC, t1, tail_cut])
    (by norm_num [telGeom, cleanMask, maskMul, dictLookup, extC, t1])
    (by norm_num [telGeom, telNom, cleanMask, maskMul, dictLookup, extC, t1])
    (by norm_num [telGeom, dictLookup, extC, t1, preselect, amp_cut,
      dist_cut, distSq])
  exact h.1

/-- C4: for every event passing the multiplicity gate, immediately
after the stereo fit the fitted core position is overwritten with the
normal draw (standard deviation 25) around the true simulated core
position, and this overwritten fit result is what the energy estimator
receives. -/
theorem core_overwrite (ext : Externals) (geoms : List (ℕ × CamGeom))
    (ev : Event) (out : RecoOutcome) (f0 : FitResult)
    (h : reconstruct_event ext geoms ev = .ok out)
    (hf : out.fitResult = some f0) :
    out.energyArg = some { f0 with
      core_x := ext.normalDraw ev.mc_core_x 25
      core_y := ext.normalDraw ev.mc_core_y 25 } ∧
    out.row.isSome = true := by
  obtain ⟨g, st, hfold, hgeoms, hst, hif⟩ :=
    reconstruct_event_parts ext geoms ev out h
  by_cases hgate : 1 < st.image.length
  · rw [if_pos hgate] at hif
    obtain ⟨h1, h2, h3, h4⟩ := hif
    rw [h1] at hf
    simp only [Option.some.injEq] at hf
    rw [h3, h4, ← hf]
    exact ⟨rfl, rfl⟩
  · rw [if_neg hgate] at hif
    rw [hif.1] at hf
    cases hf

/-- Witness for C4 at the concrete event: the raw fit core is (7, 9)
but the energy estimator receives core (28, 29) = (3 + 25, 4 + 25),
the (deterministic) normal draws around the true core (3, 4). -/
theorem core_overwrite_witness :
    (reconstruct_event extC [] evC).toOption.bind RecoOutcome.energyArg =
      some { alt := 1 / 2, az := 1 / 3, core_x := 28, core_y := 29 } := by
  cases hrec : reconstruct_event extC [] evC with
  | error e =>
    have he := evC_reco_eval
    rw [hrec] at he
    simp at he
  | ok out =>
    have hout := hrec.symm.trans evC_reco_eval
    simp only [Except.ok.injEq] at hout
    have hf : out.fitResult =
        some { alt := 1 / 2, az := 1 / 3, core_x := 7, core_y := 9 } := by
      rw [hout]
    have h := core_overwrite extC [] evC out
      { alt := 1 / 2, az := 1 / 3, core_x := 7, core_y := 9 } hrec hf
    show out.energyArg = _
    rw [h.1]
    norm_num [extC, evC]

/-- C5: on a concrete event passing the gate, the tilted-to-ground
projection of the fitted core is computed (value (8, 10)) but
discarded: the core carried by the fit result into the energy
estimator and the output is (28, 29) — the perturbation of the true
core — not the ground-frame coordinates of the fitted core. -/
theorem ground_projection_discarded :
    (reconstruct_event extC [] evC).toOption.bind RecoOutcome.groundCore =
      some (8, 10) ∧
    ((reconstruct_event extC [] evC).toOption.bind
        RecoOutcome.energyArg).map (fun f => (f.core_x, f.core_y)) =
      some (28, 29) ∧
    (((8 : ℚ), (10 : ℚ)) : ℚ × ℚ) ≠ ((28 : ℚ), (29 : ℚ)) := by
  rw [evC_reco_eval]
  refine ⟨rfl, rfl, ?_⟩
  intro h
  injection h with h1 h2
  norm_num at h1

/-- C6: if the Hillas moment computation raises its
parameterization error (on the camera-frame call or on the
nominal-frame call), the telescope is skipped — the per-event state is
returned unchanged, so no dictionary gains an entry — and the loop
continues with the remaining telescopes; the error does not propagate
(the result is `.ok`, not `.error`). -/
theorem hillas_error_skips_telescope (ext : Externals) (ap : Pointing)
    (geoms : List (ℕ × CamGeom)) (st : EvState) (t : TelData)
    (rest : List TelData) (g : CamGeom) (tc : ℚ × ℚ) (e : String)
    (hg : g = telGeom ext geoms t)
    (htc : tail_cut g.cam_id = some tc)
    (herr : ext.hillasParams t.pix_x t.pix_y
        (maskMul t.pmt_signal (cleanMask ext g t tc)) = .error e ∨
      ∃ mc, ext.hillasParams t.pix_x t.pix_y
          (maskMul t.pmt_signal (cleanMask ext g t tc)) = .ok mc ∧
        ext.hillasParams (telNom ext ap g t).1 (telNom ext ap g t).2
          (maskMul t.pmt_signal (cleanMask ext g t tc)) = .error e) :
    processTel ext ap geoms st t = .ok (geomsAfter ext geoms t, st) ∧
    foldTels ext ap (t :: rest) geoms st =
      foldTels ext ap rest (geomsAfter ext geoms t) st := by
  subst hg
  have hstep : telStep ext ap (telGeom ext geoms t) t = .ok none := by
    unfold telStep
    rcases herr with herr | ⟨mc, hok, herr⟩
    · simp only [htc, herr]
    · simp only [htc, hok, herr]
  have hpt : processTel ext ap geoms st t =
      .ok (geomsAfter ext geoms t, st) := by
    unfold processTel
    rw [hstep]
  refine ⟨hpt, ?_⟩
  rw [foldTels_cons, hpt]

/-- Witness for C6: with a moment computation that always fails, the
first telescope is skipped with the state unchanged and the loop moves
on to the second telescope. -/
theorem hillas_error_skips_telescope_witness :
    processTel extErr apC [] emptyEvState t1 =
      .ok (geomsAfter extErr [] t1, emptyEvState) ∧
    foldTels extErr apC [t1, t2] [] emptyEvState =
      foldTels extErr apC [t2] (geomsAfter extErr [] t1) emptyEvState :=
  hillas_error_skips_telescope extErr apC [] emptyEvState t1 [t2]
    (telGeom extErr [] t1) (8, 16) "HillasParameterizationError" rfl
    (by norm_num [telGeom, dictLookup, extErr, extC, t1, tail_cut])
    (Or.inl rfl)

/-- C7: the geometry registry computes a telescope's camera geometry at
most once per telescope id: a cached entry survives any further
sequence of encounters unchanged; the first encounter of an uncached id
stores the geometry guessed from that encounter's pixel arrays; an
encounter of a cached id returns the cached value no matter what pixel
arrays it carries and leaves the cache untouched; `CameraGeometry.guess`
runs at most once per id; and the per-telescope loop of
`reconstruct_event` updates the cache exactly through such a sequence
of encounters. -/
theorem geometry_cache_write_once (ext : Externals)
    (geoms : List (ℕ × CamGeom)) (ts : List TelData) (id : ℕ)
    (g : CamGeom) (t u : TelData) (ap : Pointing) (st : EvState)
    (hcached : dictLookup geoms id = some g)
    (hfirst : dictLookup geoms t.tel_id = none)
    (hsub : dictLookup geoms u.tel_id = some g) :
    dictLookup (registryRun ext geoms ts) id = some g ∧
    dictLookup (geomsAfter ext geoms t) t.tel_id =
      some (ext.guess t.pix_x t.pix_y t.foclen) ∧
    geomsAfter ext geoms u = geoms ∧
    telGeom ext geoms u = g ∧
    guessCount ext geoms ts id ≤ 1 ∧
    (∀ g' st', foldTels ext ap ts geoms st = .ok (g', st') →
      g' = registryRun ext geoms ts) := by
  refine ⟨dictLookup_registryRun_of_some ext ts geoms id g hcached, ?_, ?_,
    ?_, guessCount_le_one ext ts geoms id, ?_⟩
  · unfold geomsAfter
    rw [hfirst]
    exact dictLookup_dictInsert_self _ _ _
  · unfold geomsAfter
    rw [hsub]
  · unfold telGeom
    rw [hsub]
  · intro g' st' h
    exact foldTels_registry ext ap ts geoms st g' st' h

/-- Witness for C7: with id 5 cached, running the two fresh telescopes
leaves the cached entry intact, the first encounter of id 1 stores its
guess, an encounter of id 5 with different pixel arrays returns the
cached geometry without touching the cache, and the guess counter for
id 5 stays at most one. -/
theorem geometry_cache_write_once_witness :
    dictLookup (registryRun extC [(5, gLST)] [t1, t2]) 5 = some gLST ∧
    dictLookup (geomsAfter extC [(5, gLST)] t1) t1.tel_id =
      some (extC.guess t1.pix_x t1.pix_y t1.foclen) ∧
    geomsAfter extC [(5, gLST)] t5 = [(5, gLST)] ∧
    telGeom extC [(5, gLST)] t5 = gLST ∧
    guessCount extC [(5, gLST)] [t1, t2] 5 ≤ 1 := by
  have h := geometry_cache_write_once extC [(5, gLST)] [t1, t2] 5 gLST
    t1 t5 apC emptyEvState rfl rfl rfl
  exact ⟨h.1, h.2.1, h.2.2.1, h.2.2.2.1, h.2.2.2.2.1⟩

/-- C8: a telescope whose inferred camera type has no entry in the
amplitude-cut, distance-cut, or tail-cut tables makes the per-telescope
step raise (`KeyError` at the tail-cut lookup), the whole
`reconstruct_event` call raise (no per-telescope or per-event skip),
and the run terminate with the error, producing no further rows. -/
theorem missing_camera_type_fatal (ext : Externals)
    (geoms : List (ℕ × CamGeom)) (pre rest : List TelData) (t : TelData)
    (ev : Event) (g1 : List (ℕ × CamGeom)) (st1 : EvState) (c : String)
    (hc : c = (telGeom ext g1 t).cam_id)
    (hamp : amp_cut c = none) (hdist : dist_cut c = none)
    (htail : tail_cut c = none)
    (hpre : foldTels ext (arrayPointing ev) pre geoms emptyEvState =
      .ok (g1, st1))
    (hev : ev.tels = pre ++ t :: rest) :
    processTel ext (arrayPointing ev) g1 st1 t = .error c ∧
    reconstruct_event ext geoms ev = .error c ∧
    (∀ ev0 more, ext.calibrate ev0 = ev →
      runEvents ext geoms (ev0 :: more) = .error c) := by
  have hstep : telStep ext (arrayPointing ev) (telGeom ext g1 t) t =
      .error c := by
    unfold telStep
    rw [hc] at htail
    simp only [htail]
    rw [hc]
  have hpt : processTel ext (arrayPointing ev) g1 st1 t = .error c := by
    unfold processTel
    rw [hstep]
  have hfold : foldTels ext (arrayPointing ev) ev.tels geoms emptyEvState =
      .error c := by
    rw [hev, foldTels_append, hpre]
    show foldTels ext (arrayPointing ev) (t :: rest) g1 st1 = Except.error c
    rw [foldTels_cons, hpt]
  have hrec : reconstruct_event ext geoms ev = .error c := by
    unfold reconstruct_event
    rw [hfold]
  refine ⟨hpt, hrec, ?_⟩
  intro ev0 more hcal
  show (match reconstruct_event ext geoms (ext.calibrate ev0) with
    | .error e => Except.error e
    | .ok out =>
      match runEvents ext out.geoms more with
      | .error e => Except.error e
      | .ok rows => Except.ok (out.row.toList ++ rows)) = _
  rw [hcal, hrec]

/-- Witness for C8: the camera type "ASTRICam" is registered in no cut
table; processing its telescope aborts the event and the run. -/
theorem missing_camera_type_fatal_witness :
    processTel extBad (arrayPointing evBad) [] emptyEvState t1 =
      .error "ASTRICam" ∧
    reconstruct_event extBad [] evBad = .error "ASTRICam" := by
  have h := missing_camera_type_fatal extBad [] [] [] t1 evBad []
    emptyEvState "ASTRICam" rfl
    (by decide) (by decide) (by decide) rfl rfl
  exact ⟨h.1, h.2.1⟩

/-- C10: a configured telescope-filter list with fewer than two entries
is replaced by `None` (no restriction on the event source), so no
configuration can restrict the run to exactly one telescope: every
surviving filter has at least two entries. -/
theorem telescope_filter_normalization :
    (∀ ts : List ℤ, ts.length < 2 → setupTelescopes ts = none) ∧
    (∀ ts l : List ℤ, setupTelescopes ts = some l → 2 ≤ l.length) := by
  constructor
  · intro ts h
    unfold setupTelescopes
    rw [if_pos h]
  · intro ts l h
    unfold setupTelescopes at h
    split_ifs at h with h1
    injection h with h
    rw [← h]
    omega

/-- Witness for C10: the empty list and a one-element list are both
replaced by `None`. -/
theorem telescope_filter_normalization_witness :
    setupTelescopes [] = none ∧ setupTelescopes [5] = none :=
  ⟨telescope_filter_normalization.1 [] (by norm_num),
   telescope_filter_normalization.1 [5] (by norm_num)⟩

end HillasReco

